import Mathlib

/-!
Verification of the DataFlashDevice SPI flash block-device driver
(src/DataFlashDevice.h) against its natural-language specification.

The repository ships only the class declaration (DataFlashDevice.h); the
member-function bodies are not part of the sources.  The data model below
therefore mirrors the header exactly (the private members in lines 133-147
become the fields of `DataFlashDevice`), while the behaviour of each member
function is modelled from the specification, as noted in each doc comment.
Effects are made explicit: the physical chip is a `Chip` record, every
operation returns the updated driver/chip state together with the list of
bus transactions it issued, and the blocking wake delay is returned as data.
-/

set_option autoImplicit false

namespace DataFlash

/-- Error kinds of the driver (spec section 7). -/
inductive Err where
  | AlignmentError
  | RangeError
  | DeviceNotFound
  | BusTransportError
  | BusyTimeout
  | PowerStateViolation
deriving DecidableEq

/-- A bus transaction: one encoded command sent over the serial bus
(spec sections 4.1 and 6). -/
inductive BusTx where
  | readStatusCmd
  | wrenCmd (en : Bool)
  | readCmd (addr len : Nat)
  | programCmd (addr : Nat) (data : List Nat)
  | eraseCmd (addr : Nat)
  | dpdEnterCmd
  | dpdExitCmd
deriving DecidableEq

/-- The physical flash chip as seen over the bus: its byte array, how many
status polls remain until the busy bit clears, the write-enable latch, and
the chip-specific durations (in polls) of a program and an erase operation. -/
structure Chip where
  mem : Nat → Nat
  busy_cycles : Nat
  write_enabled : Bool
  prog_time : Nat
  erase_time : Nat

/-- The driver state: exactly the private data members declared in
src/DataFlashDevice.h lines 139-147 (the pin/bus handles carry no modelled
state).  All of these are per-instance members of the class. -/
structure DataFlashDevice where
  pages : Nat
  pagesize : Nat
  devicesize : Nat
  blocks : Nat
  _deep_down : Bool
  _deep_down_onoff : Bool
  _size : Nat
deriving DecidableEq

/-- Erased-state byte of the chip family (spec section 8: all 0xFF). -/
def DATAFLASH_ERASED_BYTE : Nat := 255

/-- Modelled from the spec: the header comment at line 174 declares a
mandatory 35 microsecond wake latency after leaving deep power-down. -/
def DATAFLASH_WAKE_LATENCY_US : Nat := 35

/-- Modelled from the spec: the busy-wait timeout bound, counted in status
polls (spec section 4.3 requires a bounded timeout; no number is given). -/
def DATAFLASH_TIMEOUT : Nat := 64

/-- Modelled from the spec: the read unit of the chip is a single byte. -/
def DATAFLASH_READ_SIZE : Nat := 1

/-- Program unit size: the page size held in the driver geometry. -/
def program_unit (d : DataFlashDevice) : Nat := d.pagesize

/-- Erase unit size: the device is divided into `blocks` erase blocks. -/
def erase_unit (d : DataFlashDevice) : Nat := d.devicesize / d.blocks

/-- The status register byte: bit 0 is busy, bit 1 is write-enabled
(spec section 6). -/
def statusByte (c : Chip) : Nat :=
  (if c.busy_cycles ≠ 0 then 1 else 0) + (if c.write_enabled then 2 else 0)

/-- Modelled from the spec: `isbusy` (header line 158) reports whether the
chip's busy bit is set. -/
def isbusy (c : Chip) : Bool := decide (c.busy_cycles ≠ 0)

/-- Modelled from the spec: the busy-wait loop behind `busy()` and `_sync()`
(header lines 160 and 193, spec section 4.3 `wait_until_idle`): poll the
status register until the busy bit clears or the poll budget is exhausted;
on timeout fail with `BusyTimeout` and do not retry.  Each poll lets one
unit of chip time pass. -/
def wait_until_idle (fuel : Nat) (c : Chip) :
    Except Err Unit × Chip × List BusTx :=
  if isbusy c then
    match fuel with
    | 0 => (Except.error Err.BusyTimeout, c, [BusTx.readStatusCmd])
    | fuel' + 1 =>
      let r := wait_until_idle fuel' { c with busy_cycles := c.busy_cycles - 1 }
      (r.1, r.2.1, BusTx.readStatusCmd :: r.2.2)
  else
    (Except.ok (), c, [BusTx.readStatusCmd])

/-- Modelled from the spec: `busy()` (header line 160) waits until the flash
is not busy, bounded by the driver timeout. -/
def busy (c : Chip) : Except Err Unit × Chip × List BusTx :=
  wait_until_idle DATAFLASH_TIMEOUT c

/-- Modelled from the spec: `_sync()` (header line 193) is the same bounded
busy-wait, used after issuing a destructive command. -/
def _sync (c : Chip) : Except Err Unit × Chip × List BusTx :=
  busy c

/-- Modelled from the spec: `wren` (header line 191) issues the
write-enable / write-disable command, setting the chip latch. -/
def wren (en : Bool) (c : Chip) : Chip × List BusTx :=
  ({ c with write_enabled := en }, [BusTx.wrenCmd en])

/-- The bytes the read command streams out of the chip. -/
def readBytes (mem : Nat → Nat) (addr len : Nat) : List Nat :=
  (List.range len).map (fun i => mem (addr + i))

/-- Effect of a program command on the chip array: NOR programming can only
clear bits, so each byte in the target window is bitwise-anded with the
payload byte (a freshly erased 0xFF byte takes the payload unchanged,
matching the spec caveat that the target must be erased first). -/
def programMem (mem : Nat → Nat) (buffer : List Nat) (addr len : Nat) :
    Nat → Nat :=
  fun a =>
    if addr ≤ a ∧ a < addr + len then
      Nat.land (mem a) (buffer.getD (a - addr) DATAFLASH_ERASED_BYTE)
    else mem a

/-- Effect of an erase command on the chip array: the window is reset to the
erased-state byte. -/
def eraseMem (mem : Nat → Nat) (addr len : Nat) : Nat → Nat :=
  fun a =>
    if addr ≤ a ∧ a < addr + len then DATAFLASH_ERASED_BYTE else mem a

/-- Modelled from the spec: `is_it_awake` (header lines 179-183) reports the
power state; per the header comment it returns true when the device is in
deep power-down. -/
def is_it_awake (d : DataFlashDevice) : Bool := d._deep_down

/-- Modelled from the spec: `status` (header line 156) reads the status
register; like every command it is rejected with `PowerStateViolation`
while the device is in deep power-down (spec section 4.4). -/
def status (d : DataFlashDevice) (c : Chip) :
    Except Err Nat × DataFlashDevice × Chip × List BusTx :=
  if d._deep_down then (Except.error Err.PowerStateViolation, d, c, [])
  else (Except.ok (statusByte c), d, c, [BusTx.readStatusCmd])

/-- Modelled from the spec: `read` (header line 82, spec sections 4.1, 4.2):
reject while deep powered-down, reject misaligned or out-of-range requests
before any bus transaction, treat a zero length as a no-op, else issue one
read command and stream the bytes. -/
def read (d : DataFlashDevice) (c : Chip) (addr len : Nat) :
    Except Err (List Nat) × DataFlashDevice × Chip × List BusTx :=
  if d._deep_down then (Except.error Err.PowerStateViolation, d, c, [])
  else if addr % DATAFLASH_READ_SIZE ≠ 0 ∨ len % DATAFLASH_READ_SIZE ≠ 0 then
    (Except.error Err.AlignmentError, d, c, [])
  else if d.devicesize < addr + len then (Except.error Err.RangeError, d, c, [])
  else if len = 0 then (Except.ok [], d, c, [])
  else (Except.ok (readBytes c.mem addr len), d, c, [BusTx.readCmd addr len])

/-- Modelled from the spec: `program` (header line 93, spec sections 4.1-4.3):
reject while deep powered-down, reject misaligned or out-of-range requests
before any bus transaction, treat a zero length as a no-op; otherwise wait
for the chip to be idle, issue write-enable then the program command (the
chip clears the write-enable latch and goes busy), and wait again for the
busy bit to clear before returning. -/
def program (d : DataFlashDevice) (c : Chip) (buffer : List Nat)
    (addr len : Nat) :
    Except Err Unit × DataFlashDevice × Chip × List BusTx :=
  if d._deep_down then (Except.error Err.PowerStateViolation, d, c, [])
  else if addr % program_unit d ≠ 0 ∨ len % program_unit d ≠ 0 then
    (Except.error Err.AlignmentError, d, c, [])
  else if d.devicesize < addr + len then (Except.error Err.RangeError, d, c, [])
  else if len = 0 then (Except.ok (), d, c, [])
  else
    match busy c with
    | (Except.error e, c1, tr1) => (Except.error e, d, c1, tr1)
    | (Except.ok _, c1, tr1) =>
      let w := wren true c1
      let c2 : Chip :=
        { w.1 with
          mem := programMem w.1.mem buffer addr len
          busy_cycles := w.1.prog_time
          write_enabled := false }
      let r := _sync c2
      (r.1, d, r.2.1,
        tr1 ++ w.2 ++ [BusTx.programCmd addr (buffer.take len)] ++ r.2.2)

/-- Modelled from the spec: `eraseBlock` (header line 170) erases one
erase-unit starting at `addr`: write-enable, issue the erase command (the
chip erases the window and goes busy), then wait for the busy bit. -/
def eraseBlock (d : DataFlashDevice) (c : Chip) (addr : Nat) :
    Except Err Unit × Chip × List BusTx :=
  let w := wren true c
  let c2 : Chip :=
    { w.1 with
      mem := eraseMem w.1.mem addr (erase_unit d)
      busy_cycles := w.1.erase_time
      write_enabled := false }
  let r := _sync c2
  (r.1, r.2.1, w.2 ++ [BusTx.eraseCmd addr] ++ r.2.2)

/-- Modelled from the spec: erase `n` consecutive erase units starting at
`addr`, one erase command per unit (spec section 4.1), stopping at the
first failure. -/
def eraseUnits (d : DataFlashDevice) :
    Nat → Nat → Chip → Except Err Unit × Chip × List BusTx
  | 0, _, c => (Except.ok (), c, [])
  | n + 1, addr, c =>
    match eraseBlock d c addr with
    | (Except.error e, c1, tr1) => (Except.error e, c1, tr1)
    | (Except.ok _, c1, tr1) =>
      let r := eraseUnits d n (addr + erase_unit d) c1
      (r.1, r.2.1, tr1 ++ r.2.2)

/-- Modelled from the spec: `erase` (header line 103, spec sections 4.1-4.3):
reject while deep powered-down, reject misaligned or out-of-range requests
before any bus transaction, treat a zero length as a no-op; otherwise wait
for the chip to be idle and erase the covering units one by one. -/
def erase (d : DataFlashDevice) (c : Chip) (addr len : Nat) :
    Except Err Unit × DataFlashDevice × Chip × List BusTx :=
  if d._deep_down then (Except.error Err.PowerStateViolation, d, c, [])
  else if addr % erase_unit d ≠ 0 ∨ len % erase_unit d ≠ 0 then
    (Except.error Err.AlignmentError, d, c, [])
  else if d.devicesize < addr + len then (Except.error Err.RangeError, d, c, [])
  else if len = 0 then (Except.ok (), d, c, [])
  else
    match busy c with
    | (Except.error e, c1, tr1) => (Except.error e, d, c1, tr1)
    | (Except.ok _, c1, tr1) =>
      let r := eraseUnits d (len / erase_unit d) addr c1
      (r.1, d, r.2.1, tr1 ++ r.2.2)

/-- Modelled from the spec: `deep_power_down` (header lines 172-177, spec
section 4.4).  Entering deep power-down issues the entry command and flips
the instance flag immediately; waking issues the exit command and blocks
for the wake latency before returning.  The last component is the number
of microseconds the call blocks. -/
def deep_power_down (onoff : Bool) (d : DataFlashDevice) :
    DataFlashDevice × List BusTx × Nat :=
  if onoff then
    if d._deep_down then (d, [], 0)
    else ({ d with _deep_down := true, _deep_down_onoff := onoff },
          [BusTx.dpdEnterCmd], 0)
  else
    if d._deep_down then
      ({ d with _deep_down := false, _deep_down_onoff := onoff },
       [BusTx.dpdExitCmd], DATAFLASH_WAKE_LATENCY_US)
    else (d, [], 0)

/-- Modelled from the spec: the geometry populated by `init()` from the
fixed table for the spec's example chip (spec section 8: page size 256,
65536 pages, 16 MiB device, 4096-byte erase blocks), power state awake. -/
def init : DataFlashDevice :=
  { pages := 65536
    pagesize := 256
    devicesize := 16777216
    blocks := 4096
    _deep_down := false
    _deep_down_onoff := false
    _size := 16777216 }

/-- Modelled from the spec: `get_read_size` (header line 111), a const
accessor into the geometry: the result, the unchanged driver state, and the
empty bus trace. -/
def get_read_size (d : DataFlashDevice) :
    Nat × DataFlashDevice × List BusTx :=
  (DATAFLASH_READ_SIZE, d, [])

/-- Modelled from the spec: `get_program_size` (header line 118), a const
accessor into the geometry. -/
def get_program_size (d : DataFlashDevice) :
    Nat × DataFlashDevice × List BusTx :=
  (program_unit d, d, [])

/-- Modelled from the spec: `get_erase_size` (header line 125), a const
accessor into the geometry. -/
def get_erase_size (d : DataFlashDevice) :
    Nat × DataFlashDevice × List BusTx :=
  (erase_unit d, d, [])

/-- Modelled from the spec: `size` (header line 131), a const accessor
returning the total device capacity. -/
def size (d : DataFlashDevice) : Nat × DataFlashDevice × List BusTx :=
  (d._size, d, [])

/-- The geometry fields of the driver state, bundled for frame statements. -/
def geometry (d : DataFlashDevice) : Nat × Nat × Nat × Nat × Nat :=
  (d.pages, d.pagesize, d.devicesize, d.blocks, d._size)

/-- A concrete idle chip in the erased state, used for witnesses. -/
def chip0 : Chip :=
  { mem := fun _ => DATAFLASH_ERASED_BYTE
    busy_cycles := 0
    write_enabled := false
    prog_time := 2
    erase_time := 2 }

/-- A concrete driver instance in deep power-down, used for witnesses. -/
def dev_down : DataFlashDevice := { init with _deep_down := true }

/-- A concrete chip whose erase operation outlasts the busy-wait timeout. -/
def chip_slow : Chip :=
  { mem := fun _ => DATAFLASH_ERASED_BYTE
    busy_cycles := 0
    write_enabled := false
    prog_time := 2
    erase_time := 200 }

/-- A concrete one-page buffer of bytes, used for witnesses. -/
def buf0 : List Nat := List.replicate 256 7

/-- A second driver instance with a different per-instance geometry. -/
def dev_b : DataFlashDevice :=
  { pages := 32768
    pagesize := 512
    devicesize := 16777216
    blocks := 4096
    _deep_down := false
    _deep_down_onoff := false
    _size := 16777216 }

/-- A process driving two driver instances.  The header declares the
deep-power-down flag and the geometry as private non-static data members of
the class (src/DataFlashDevice.h lines 133-147), so each instance carries
its own copy of them; the process state is simply the two records. -/
structure TwoDrivers where
  dev1 : DataFlashDevice
  dev2 : DataFlashDevice
deriving DecidableEq

/-- Apply a power transition to the first instance of the process. -/
def proc_deep_power_down_first (onoff : Bool) (p : TwoDrivers) : TwoDrivers :=
  { p with dev1 := (deep_power_down onoff p.dev1).1 }

/-- Apply an erase to the first instance of the process. -/
def proc_erase_first (c : Chip) (addr len : Nat) (p : TwoDrivers) :
    TwoDrivers :=
  { p with dev1 := (erase p.dev1 c addr len).2.1 }

theorem wait_until_idle_idle (fuel : Nat) (c : Chip)
    (hb : c.busy_cycles = 0) :
    wait_until_idle fuel c = (Except.ok (), c, [BusTx.readStatusCmd]) := by
  rw [wait_until_idle.eq_def, if_neg (by simp [isbusy, hb])]

theorem wait_until_idle_zero_busy (c : Chip) (hb : c.busy_cycles ≠ 0) :
    wait_until_idle 0 c =
      (Except.error Err.BusyTimeout, c, [BusTx.readStatusCmd]) := by
  rw [wait_until_idle, if_pos (by simp [isbusy, hb])]

theorem wait_until_idle_busy_step (n : Nat) (c : Chip)
    (hb : c.busy_cycles ≠ 0) :
    wait_until_idle (n + 1) c =
      ((wait_until_idle n { c with busy_cycles := c.busy_cycles - 1 }).1,
       (wait_until_idle n { c with busy_cycles := c.busy_cycles - 1 }).2.1,
       BusTx.readStatusCmd ::
         (wait_until_idle n { c with busy_cycles := c.busy_cycles - 1 }).2.2) := by
  rw [wait_until_idle, if_pos (by simp [isbusy, hb])]

theorem wait_until_idle_of_le (fuel : Nat) :
    ∀ c : Chip, c.busy_cycles ≤ fuel →
      wait_until_idle fuel c =
        (Except.ok (), { c with busy_cycles := 0 },
         List.replicate (c.busy_cycles + 1) BusTx.readStatusCmd) := by
  induction fuel with
  | zero =>
    intro c h
    obtain ⟨m, b, w, p, e⟩ := c
    have h0 : b = 0 := by simpa using h
    subst h0
    rw [wait_until_idle_idle 0 _ rfl]
    simp [List.replicate]
  | succ n ih =>
    intro c h
    obtain ⟨m, b, w, p, e⟩ := c
    by_cases hb : b = 0
    · subst hb
      rw [wait_until_idle_idle (n + 1) _ rfl]
      simp [List.replicate]
    · have hble : (Chip.mk m (b - 1) w p e).busy_cycles ≤ n := by
        show b - 1 ≤ n
        have hh : b ≤ n + 1 := h
        omega
      have ih' := ih (Chip.mk m (b - 1) w p e) hble
      rw [wait_until_idle_busy_step n _ hb]
      have hcc : ({ Chip.mk m b w p e with busy_cycles := b - 1 } : Chip) =
          Chip.mk m (b - 1) w p e := rfl
      rw [hcc, ih']
      have hb1 : b - 1 + 1 = b := by omega
      simp [hb1, List.replicate_succ]

theorem wait_until_idle_timeout (fuel : Nat) :
    ∀ c : Chip, fuel < c.busy_cycles →
      wait_until_idle fuel c =
        (Except.error Err.BusyTimeout,
         { c with busy_cycles := c.busy_cycles - fuel },
         List.replicate (fuel + 1) BusTx.readStatusCmd) := by
  induction fuel with
  | zero =>
    intro c h
    obtain ⟨m, b, w, p, e⟩ := c
    have hh : 0 < b := h
    rw [wait_until_idle_zero_busy _ (by omega)]
    simp [List.replicate]
  | succ n ih =>
    intro c h
    obtain ⟨m, b, w, p, e⟩ := c
    have hh : n + 1 < b := h
    rw [wait_until_idle_busy_step n _ (by omega)]
    have hble : n < (Chip.mk m (b - 1) w p e).busy_cycles := by
      show n < b - 1
      omega
    have ih' := ih (Chip.mk m (b - 1) w p e) hble
    have hcc : ({ Chip.mk m b w p e with busy_cycles := b - 1 } : Chip) =
        Chip.mk m (b - 1) w p e := rfl
    rw [hcc, ih']
    have hb1 : b - 1 - n = b - (n + 1) := by omega
    simp [hb1, List.replicate_succ]

theorem wait_until_idle_head (fuel : Nat) (c : Chip) :
    ((wait_until_idle fuel c).2.2).head? = some BusTx.readStatusCmd := by
  by_cases hb : c.busy_cycles = 0
  · rw [wait_until_idle_idle fuel c hb]
    rfl
  · cases fuel with
    | zero =>
      rw [wait_until_idle_zero_busy c hb]
      rfl
    | succ n =>
      rw [wait_until_idle_busy_step n c hb]
      rfl

theorem wait_until_idle_spec (fuel : Nat) :
    ∀ c : Chip,
      ((wait_until_idle fuel c).2.2).length ≤ fuel + 1 ∧
      (∀ t ∈ (wait_until_idle fuel c).2.2, t = BusTx.readStatusCmd) ∧
      ((wait_until_idle fuel c).1 = Except.ok () ∧
         (wait_until_idle fuel c).2.1.busy_cycles = 0 ∨
       (wait_until_idle fuel c).1 = Except.error Err.BusyTimeout) := by
  induction fuel with
  | zero =>
    intro c
    by_cases hb : c.busy_cycles = 0
    · rw [wait_until_idle_idle 0 c hb]
      simp [hb]
    · rw [wait_until_idle_zero_busy c hb]
      simp
  | succ n ih =>
    intro c
    by_cases hb : c.busy_cycles = 0
    · rw [wait_until_idle_idle (n + 1) c hb]
      simp [hb]
    · obtain ⟨h1, h2, h3⟩ := ih { c with busy_cycles := c.busy_cycles - 1 }
      rw [wait_until_idle_busy_step n c hb]
      refine ⟨?_, ?_, ?_⟩
      · simpa using Nat.succ_le_succ h1
      · intro t ht
        rcases List.mem_cons.mp ht with h | h
        · exact h
        · exact h2 t h
      · exact h3

theorem wait_until_idle_ok_busy (fuel : Nat) (c : Chip)
    (h : (wait_until_idle fuel c).1 = Except.ok ()) :
    (wait_until_idle fuel c).2.1.busy_cycles = 0 := by
  rcases (wait_until_idle_spec fuel c).2.2 with ⟨_, hb⟩ | herr
  · exact hb
  · rw [herr] at h
    cases h

theorem wait_until_idle_mem (fuel : Nat) :
    ∀ c : Chip, (wait_until_idle fuel c).2.1.mem = c.mem := by
  induction fuel with
  | zero =>
    intro c
    by_cases hb : c.busy_cycles = 0
    · rw [wait_until_idle_idle 0 c hb]
    · rw [wait_until_idle_zero_busy c hb]
  | succ n ih =>
    intro c
    by_cases hb : c.busy_cycles = 0
    · rw [wait_until_idle_idle (n + 1) c hb]
    · rw [wait_until_idle_busy_step n c hb]
      exact ih { c with busy_cycles := c.busy_cycles - 1 }

theorem eraseBlock_eq (d : DataFlashDevice) (c : Chip) (addr : Nat)
    (ht : c.erase_time ≤ DATAFLASH_TIMEOUT) :
    eraseBlock d c addr =
      (Except.ok (),
       { mem := eraseMem c.mem addr (erase_unit d)
         busy_cycles := 0
         write_enabled := false
         prog_time := c.prog_time
         erase_time := c.erase_time },
       BusTx.wrenCmd true :: BusTx.eraseCmd addr ::
         List.replicate (c.erase_time + 1) BusTx.readStatusCmd) := by
  obtain ⟨m, b, w, p, e⟩ := c
  have hle : (Chip.mk (eraseMem m addr (erase_unit d)) e false p e).busy_cycles
      ≤ DATAFLASH_TIMEOUT := ht
  simp only [eraseBlock, wren, _sync, busy]
  rw [wait_until_idle_of_le DATAFLASH_TIMEOUT _ hle]
  simp

theorem eraseBlock_mem (d : DataFlashDevice) (c : Chip) (addr : Nat) :
    (eraseBlock d c addr).2.1.mem = eraseMem c.mem addr (erase_unit d) := by
  simp only [eraseBlock, wren, _sync, busy]
  rw [wait_until_idle_mem]

theorem eraseBlock_ok_busy (d : DataFlashDevice) (c : Chip) (addr : Nat)
    (h : (eraseBlock d c addr).1 = Except.ok ()) :
    (eraseBlock d c addr).2.1.busy_cycles = 0 := by
  simp only [eraseBlock, wren, _sync, busy] at h ⊢
  exact wait_until_idle_ok_busy _ _ h

theorem eraseBlock_head (d : DataFlashDevice) (c : Chip) (addr : Nat) :
    ((eraseBlock d c addr).2.2).head? = some (BusTx.wrenCmd true) := by
  simp only [eraseBlock, wren, _sync, busy]
  rfl

theorem eraseUnits_ok (d : DataFlashDevice) :
    ∀ (n addr : Nat) (c : Chip), c.erase_time ≤ DATAFLASH_TIMEOUT →
      (eraseUnits d n addr c).1 = Except.ok () ∧
      (eraseUnits d n addr c).2.1.erase_time = c.erase_time ∧
      (eraseUnits d n addr c).2.1.busy_cycles =
        (if n = 0 then c.busy_cycles else 0) := by
  intro n
  induction n with
  | zero =>
    intro addr c ht
    simp [eraseUnits]
  | succ k ih =>
    intro addr c ht
    simp only [eraseUnits]
    rw [eraseBlock_eq d c addr ht]
    obtain ⟨h1, h2, h3⟩ := ih (addr + erase_unit d)
      (Chip.mk (eraseMem c.mem addr (erase_unit d)) 0 false
        c.prog_time c.erase_time) ht
    simp only at h1 h2 h3 ⊢
    refine ⟨h1, h2, ?_⟩
    rcases Nat.eq_zero_or_pos k with hk | hk
    · subst hk
      simpa using h3
    · have hk0 : k ≠ 0 := Nat.pos_iff_ne_zero.mp hk
      simpa [hk0] using h3

theorem eraseUnits_mem_preserved (d : DataFlashDevice) :
    ∀ (n addr : Nat) (c : Chip) (a : Nat),
      c.mem a = DATAFLASH_ERASED_BYTE →
      (eraseUnits d n addr c).2.1.mem a = DATAFLASH_ERASED_BYTE := by
  intro n
  induction n with
  | zero =>
    intro addr c a h
    simpa [eraseUnits] using h
  | succ k ih =>
    intro addr c a h
    rcases hEB : eraseBlock d c addr with ⟨r1, c1, tr1⟩
    have hm : c1.mem a = DATAFLASH_ERASED_BYTE := by
      have := eraseBlock_mem d c addr
      rw [hEB] at this
      simp only at this
      rw [this]
      unfold eraseMem
      by_cases hw : addr ≤ a ∧ a < addr + erase_unit d
      · rw [if_pos hw]
      · rw [if_neg hw]
        exact h
    simp only [eraseUnits, hEB]
    cases r1 with
    | error e => simpa using hm
    | ok u => simpa using ih (addr + erase_unit d) c1 a hm

theorem eraseUnits_erased (d : DataFlashDevice) :
    ∀ (n addr : Nat) (c : Chip), c.erase_time ≤ DATAFLASH_TIMEOUT →
      ∀ a, addr ≤ a → a < addr + n * erase_unit d →
        (eraseUnits d n addr c).2.1.mem a = DATAFLASH_ERASED_BYTE := by
  intro n
  induction n with
  | zero =>
    intro addr c ht a h1 h2
    simp at h2
    omega
  | succ k ih =>
    intro addr c ht a h1 h2
    simp only [eraseUnits]
    rw [eraseBlock_eq d c addr ht]
    simp only
    by_cases hcase : a < addr + erase_unit d
    · apply eraseUnits_mem_preserved
      simp only [eraseMem]
      rw [if_pos ⟨h1, hcase⟩]
    · rw [Nat.succ_mul] at h2
      apply ih (addr + erase_unit d)
        (Chip.mk (eraseMem c.mem addr (erase_unit d)) 0 false
          c.prog_time c.erase_time) ht a (by omega)
      generalize hB : k * erase_unit d = B at h2 ⊢
      omega

theorem eraseUnits_ok_busy (d : DataFlashDevice) :
    ∀ (n addr : Nat) (c : Chip),
      (eraseUnits d n addr c).1 = Except.ok () →
      (eraseUnits d n addr c).2.1 = c ∨
      (eraseUnits d n addr c).2.1.busy_cycles = 0 := by
  intro n
  induction n with
  | zero =>
    intro addr c _
    left
    simp [eraseUnits]
  | succ k ih =>
    intro addr c hok
    rcases hEB : eraseBlock d c addr with ⟨r1, c1, tr1⟩
    cases r1 with
    | error e =>
      simp only [eraseUnits, hEB] at hok
      cases hok
    | ok u =>
      have hb1 : c1.busy_cycles = 0 := by
        have := eraseBlock_ok_busy d c addr (by rw [hEB])
        rw [hEB] at this
        exact this
      simp only [eraseUnits, hEB] at hok ⊢
      rcases ih (addr + erase_unit d) c1 hok with h | h
      · right
        rw [h]
        exact hb1
      · right
        exact h

set_option maxRecDepth 10000 in
theorem land_erased_byte : ∀ b : Nat, b < 256 →
    Nat.land DATAFLASH_ERASED_BYTE b = b := by
  decide

theorem program_eq (d : DataFlashDevice) (c : Chip) (buffer : List Nat)
    (addr len : Nat)
    (hawake : d._deep_down = false)
    (haddr : addr % program_unit d = 0) (hlen : len % program_unit d = 0)
    (hrange : ¬ d.devicesize < addr + len) (hlen0 : len ≠ 0)
    (hb : c.busy_cycles ≤ DATAFLASH_TIMEOUT)
    (hp : c.prog_time ≤ DATAFLASH_TIMEOUT) :
    program d c buffer addr len =
      (Except.ok (), d,
       { mem := programMem c.mem buffer addr len
         busy_cycles := 0
         write_enabled := false
         prog_time := c.prog_time
         erase_time := c.erase_time },
       List.replicate (c.busy_cycles + 1) BusTx.readStatusCmd ++
         BusTx.wrenCmd true ::
           BusTx.programCmd addr (buffer.take len) ::
             List.replicate (c.prog_time + 1) BusTx.readStatusCmd) := by
  obtain ⟨m, b, w, p, e⟩ := c
  simp only [program, hawake, Bool.false_eq_true, if_false, haddr, hlen,
    ne_eq, not_true_eq_false, or_self, if_false, hrange, hlen0]
  rw [show busy (Chip.mk m b w p e) =
        wait_until_idle DATAFLASH_TIMEOUT (Chip.mk m b w p e) from rfl]
  rw [wait_until_idle_of_le DATAFLASH_TIMEOUT _ hb]
  simp only [wren, _sync, busy]
  have hple : (Chip.mk (programMem m buffer addr len) p false p e).busy_cycles
      ≤ DATAFLASH_TIMEOUT := hp
  rw [wait_until_idle_of_le DATAFLASH_TIMEOUT _ hple]
  simp

theorem readBytes_programMem (mem : Nat → Nat) (buffer : List Nat)
    (addr len : Nat)
    (hbuf : buffer.length = len) (hbytes : ∀ b ∈ buffer, b < 256)
    (herased : ∀ a, addr ≤ a → a < addr + len →
      mem a = DATAFLASH_ERASED_BYTE) :
    readBytes (programMem mem buffer addr len) addr len = buffer := by
  apply List.ext_getElem
  · simp [readBytes, hbuf]
  · intro i h1 h2
    have hi : i < len := by simpa [readBytes] using h1
    have hib : i < buffer.length := by omega
    simp only [readBytes, List.getElem_map, List.getElem_range]
    simp only [programMem]
    rw [if_pos ⟨Nat.le_add_right addr i, by omega⟩]
    rw [herased (addr + i) (Nat.le_add_right addr i) (by omega)]
    rw [Nat.add_sub_cancel_left]
    rw [List.getD_eq_getElem buffer DATAFLASH_ERASED_BYTE hib]
    exact land_erased_byte _ (hbytes _ (List.getElem_mem hib))

theorem readBytes_erased (mem : Nat → Nat) (addr len : Nat)
    (herased : ∀ a, addr ≤ a → a < addr + len →
      mem a = DATAFLASH_ERASED_BYTE) :
    readBytes mem addr len = List.replicate len DATAFLASH_ERASED_BYTE := by
  apply List.eq_replicate_iff.mpr
  constructor
  · simp [readBytes]
  · intro b hbmem
    simp only [readBytes, List.mem_map, List.mem_range] at hbmem
    obtain ⟨i, hi, hbi⟩ := hbmem
    rw [← hbi]
    exact herased (addr + i) (Nat.le_add_right addr i) (by omega)

theorem erase_eq_ok (d : DataFlashDevice) (c : Chip) (addr len : Nat)
    (hawake : d._deep_down = false)
    (haddr : addr % erase_unit d = 0) (hlen : len % erase_unit d = 0)
    (hrange : ¬ d.devicesize < addr + len) (hlen0 : len ≠ 0)
    (hb : c.busy_cycles ≤ DATAFLASH_TIMEOUT)
    (ht : c.erase_time ≤ DATAFLASH_TIMEOUT) :
    (erase d c addr len).1 = Except.ok () ∧
    (erase d c addr len).2.1 = d ∧
    ∀ a, addr ≤ a → a < addr + len →
      (erase d c addr len).2.2.1.mem a = DATAFLASH_ERASED_BYTE := by
  obtain ⟨m, b, w, p, e⟩ := c
  simp only [erase, hawake, Bool.false_eq_true, if_false, haddr, hlen,
    ne_eq, not_true_eq_false, or_self, hrange, hlen0]
  rw [show busy (Chip.mk m b w p e) =
        wait_until_idle DATAFLASH_TIMEOUT (Chip.mk m b w p e) from rfl]
  rw [wait_until_idle_of_le DATAFLASH_TIMEOUT _ hb]
  simp only
  have hml : len / erase_unit d * erase_unit d = len :=
    Nat.div_mul_cancel (Nat.dvd_of_mod_eq_zero hlen)
  obtain ⟨h1, _, _⟩ := eraseUnits_ok d (len / erase_unit d) addr
    (Chip.mk m 0 w p e) ht
  refine ⟨h1, by trivial, ?_⟩
  intro a ha1 ha2
  exact eraseUnits_erased d (len / erase_unit d) addr
    (Chip.mk m 0 w p e) ht a ha1 (by rw [hml]; exact ha2)

theorem eraseBlock_timeout (d : DataFlashDevice) (c : Chip) (addr : Nat)
    (ht : DATAFLASH_TIMEOUT < c.erase_time) :
    (eraseBlock d c addr).1 = Except.error Err.BusyTimeout ∧
    (eraseBlock d c addr).2.1.busy_cycles =
      c.erase_time - DATAFLASH_TIMEOUT := by
  obtain ⟨m, b, w, p, e⟩ := c
  have ht' : DATAFLASH_TIMEOUT <
      (Chip.mk (eraseMem m addr (erase_unit d)) e false p e).busy_cycles := ht
  simp only [eraseBlock, wren, _sync, busy]
  rw [wait_until_idle_timeout DATAFLASH_TIMEOUT _ ht']
  exact ⟨rfl, rfl⟩

theorem erase_timeout (d : DataFlashDevice) (c : Chip) (addr len : Nat)
    (hawake : d._deep_down = false)
    (haddr : addr % erase_unit d = 0) (hlen : len % erase_unit d = 0)
    (hrange : ¬ d.devicesize < addr + len) (hlen0 : len ≠ 0)
    (hb : c.busy_cycles = 0)
    (ht : DATAFLASH_TIMEOUT < c.erase_time) :
    (erase d c addr len).1 = Except.error Err.BusyTimeout ∧
    (erase d c addr len).2.2.1.busy_cycles =
      c.erase_time - DATAFLASH_TIMEOUT := by
  obtain ⟨m, b, w, p, e⟩ := c
  simp only [erase, hawake, Bool.false_eq_true, if_false, haddr, hlen,
    ne_eq, not_true_eq_false, or_self, hrange, hlen0]
  rw [show busy (Chip.mk m b w p e) =
        wait_until_idle DATAFLASH_TIMEOUT (Chip.mk m b w p e) from rfl]
  rw [wait_until_idle_idle DATAFLASH_TIMEOUT _ hb]
  simp only
  have hn : len / erase_unit d ≠ 0 := by
    intro h0
    have hml : len / erase_unit d * erase_unit d = len :=
      Nat.div_mul_cancel (Nat.dvd_of_mod_eq_zero hlen)
    rw [h0, Nat.zero_mul] at hml
    exact hlen0 hml.symm
  obtain ⟨k, hk⟩ := Nat.exists_eq_succ_of_ne_zero hn
  rw [hk]
  simp only [eraseUnits]
  obtain ⟨hr, hbz⟩ := eraseBlock_timeout d (Chip.mk m b w p e) addr ht
  rcases heb : eraseBlock d (Chip.mk m b w p e) addr with ⟨r1, c1, tr1⟩
  rw [heb] at hr hbz
  simp only at hr hbz
  subst hr
  exact ⟨rfl, hbz⟩

theorem program_poststate (d : DataFlashDevice) (c : Chip)
    (buffer : List Nat) (addr len : Nat) :
    ((program d c buffer addr len).1 ≠ Except.ok () ∨
     (program d c buffer addr len).2.2.2 = [] ∨
     (program d c buffer addr len).2.2.1.busy_cycles = 0) ∧
    ((program d c buffer addr len).2.2.2 = [] ∨
     ((program d c buffer addr len).2.2.2).head? =
       some BusTx.readStatusCmd) := by
  unfold program
  split_ifs with h1 h2 h3 h4
  · simp
  · simp
  · simp
  · simp
  · have hh := wait_until_idle_head DATAFLASH_TIMEOUT c
    rcases hbc : busy c with ⟨r1, c1, tr1⟩
    rw [show busy c = wait_until_idle DATAFLASH_TIMEOUT c from rfl] at hbc
    rw [hbc] at hh
    simp only at hh
    cases r1 with
    | error e =>
      constructor
      · left
        simp
      · right
        exact hh
    | ok u =>
      simp only [wren, _sync, busy]
      constructor
      · rcases (wait_until_idle_spec DATAFLASH_TIMEOUT
            ({ mem := programMem c1.mem buffer addr len
               busy_cycles := c1.prog_time
               write_enabled := false
               prog_time := c1.prog_time
               erase_time := c1.erase_time } : Chip)).2.2 with ⟨hok, hb0⟩ | herr
        · right; right
          exact hb0
        · left
          rw [herr]
          simp
      · cases tr1 with
        | nil => simp at hh
        | cons x xs =>
          right
          simp only [List.head?] at hh ⊢
          simpa using hh

theorem erase_poststate (d : DataFlashDevice) (c : Chip) (addr len : Nat) :
    ((erase d c addr len).1 ≠ Except.ok () ∨
     (erase d c addr len).2.2.2 = [] ∨
     (erase d c addr len).2.2.1.busy_cycles = 0) ∧
    ((erase d c addr len).2.2.2 = [] ∨
     ((erase d c addr len).2.2.2).head? = some BusTx.readStatusCmd) := by
  unfold erase
  split_ifs with h1 h2 h3 h4
  · simp
  · simp
  · simp
  · simp
  · have hh := wait_until_idle_head DATAFLASH_TIMEOUT c
    rcases hbc : busy c with ⟨r1, c1, tr1⟩
    have hbc' : wait_until_idle DATAFLASH_TIMEOUT c = (r1, c1, tr1) := hbc
    rw [hbc'] at hh
    simp only at hh
    cases r1 with
    | error e =>
      constructor
      · left
        simp
      · right
        exact hh
    | ok u =>
      have hc1 : c1.busy_cycles = 0 := by
        have := wait_until_idle_ok_busy DATAFLASH_TIMEOUT c (by rw [hbc'])
        rw [hbc'] at this
        exact this
      constructor
      · by_cases hok :
          (eraseUnits d (len / erase_unit d) addr c1).1 = Except.ok ()
        · rcases eraseUnits_ok_busy d (len / erase_unit d) addr c1 hok
            with h | h
          · right; right
            simp only [h]
            exact hc1
          · right; right
            exact h
        · left
          simpa using hok
      · cases tr1 with
        | nil => simp at hh
        | cons x xs =>
          right
          simp only [List.head?] at hh ⊢
          simpa using hh

theorem read_dev (d : DataFlashDevice) (c : Chip) (addr len : Nat) :
    (read d c addr len).2.1 = d := by
  unfold read
  split_ifs <;> rfl

theorem program_dev (d : DataFlashDevice) (c : Chip) (buffer : List Nat)
    (addr len : Nat) :
    (program d c buffer addr len).2.1 = d := by
  unfold program
  split_ifs <;> try rfl
  rcases busy c with ⟨r1, c1, tr1⟩
  cases r1 <;> rfl

theorem erase_dev (d : DataFlashDevice) (c : Chip) (addr len : Nat) :
    (erase d c addr len).2.1 = d := by
  unfold erase
  split_ifs <;> try rfl
  rcases busy c with ⟨r1, c1, tr1⟩
  cases r1 <;> rfl

theorem status_dev (d : DataFlashDevice) (c : Chip) : (status d c).2.1 = d := by
  unfold status
  split_ifs <;> rfl

theorem deep_power_down_geometry (onoff : Bool) (d : DataFlashDevice) :
    geometry (deep_power_down onoff d).1 = geometry d := by
  unfold deep_power_down
  split_ifs <;> rfl

/-- C1: for every addr and len where addr or len is not a multiple of the
erase unit size, `erase` returns an alignment error and issues zero bus
transactions; likewise, for `read`, `program` and `erase`, alignment and
range violations are reported before any bus transaction is issued, with
the driver and chip state unchanged, so no partial destructive operation
results from a malformed request. -/
theorem C1_guards_before_bus (d : DataFlashDevice) (c : Chip)
    (buffer : List Nat) (addr len : Nat)
    (hawake : d._deep_down = false) :
    (addr % erase_unit d ≠ 0 ∨ len % erase_unit d ≠ 0 →
       erase d c addr len = (Except.error Err.AlignmentError, d, c, [])) ∧
    (addr % program_unit d ≠ 0 ∨ len % program_unit d ≠ 0 →
       program d c buffer addr len =
         (Except.error Err.AlignmentError, d, c, [])) ∧
    (addr % erase_unit d = 0 → len % erase_unit d = 0 →
       d.devicesize < addr + len →
       erase d c addr len = (Except.error Err.RangeError, d, c, [])) ∧
    (addr % program_unit d = 0 → len % program_unit d = 0 →
       d.devicesize < addr + len →
       program d c buffer addr len =
         (Except.error Err.RangeError, d, c, [])) ∧
    (d.devicesize < addr + len →
       read d c addr len = (Except.error Err.RangeError, d, c, [])) := by
  refine ⟨?_, ?_, ?_, ?_, ?_⟩
  · intro h
    unfold erase
    rw [if_neg (by simp [hawake]), if_pos h]
  · intro h
    unfold program
    rw [if_neg (by simp [hawake]), if_pos h]
  · intro h1 h2 h3
    unfold erase
    rw [if_neg (by simp [hawake]), if_neg (by simp [h1, h2]), if_pos h3]
  · intro h1 h2 h3
    unfold program
    rw [if_neg (by simp [hawake]), if_neg (by simp [h1, h2]), if_pos h3]
  · intro h
    unfold read
    rw [if_neg (by simp [hawake]),
      if_neg (by simp [DATAFLASH_READ_SIZE, Nat.mod_one]), if_pos h]

theorem C1_guards_before_bus_witness :
    init._deep_down = false ∧
    erase init chip0 100 4096 =
      (Except.error Err.AlignmentError, init, chip0, []) :=
  ⟨rfl, (C1_guards_before_bus init chip0 [] 100 4096 rfl).1
    (Or.inl (by decide))⟩

/-- C2: for aligned, in-range addr and len, if the covering region was
erased first then `program` of a buffer followed by `read` of the same
region returns exactly the programmed bytes. -/
theorem C2_program_read_roundtrip (d : DataFlashDevice) (c : Chip)
    (buffer : List Nat) (addr len : Nat)
    (hawake : d._deep_down = false)
    (haddr : addr % program_unit d = 0) (hlen : len % program_unit d = 0)
    (hrange : addr + len ≤ d.devicesize)
    (hbuf : buffer.length = len) (hbytes : ∀ b ∈ buffer, b < 256)
    (herased : ∀ a, addr ≤ a → a < addr + len →
      c.mem a = DATAFLASH_ERASED_BYTE)
    (hb : c.busy_cycles ≤ DATAFLASH_TIMEOUT)
    (hp : c.prog_time ≤ DATAFLASH_TIMEOUT) :
    (program d c buffer addr len).1 = Except.ok () ∧
    (read (program d c buffer addr len).2.1
      (program d c buffer addr len).2.2.1 addr len).1 =
        Except.ok buffer := by
  have hrange' : ¬ d.devicesize < addr + len := Nat.not_lt.mpr hrange
  by_cases hlen0 : len = 0
  · subst hlen0
    have hnil : buffer = [] := List.eq_nil_of_length_eq_zero hbuf
    subst hnil
    constructor
    · unfold program
      rw [if_neg (by simp [hawake]), if_neg (by simp [haddr]),
        if_neg hrange', if_pos rfl]
    · unfold program
      rw [if_neg (by simp [hawake]), if_neg (by simp [haddr]),
        if_neg hrange', if_pos rfl]
      unfold read
      rw [if_neg (by simp [hawake]),
        if_neg (by simp [DATAFLASH_READ_SIZE, Nat.mod_one]), if_neg hrange', if_pos rfl]
  · rw [program_eq d c buffer addr len hawake haddr hlen hrange' hlen0 hb hp]
    refine ⟨rfl, ?_⟩
    unfold read
    rw [if_neg (by simp [hawake]),
      if_neg (by simp [DATAFLASH_READ_SIZE, Nat.mod_one]), if_neg hrange',
      if_neg hlen0]
    simp only
    rw [readBytes_programMem c.mem buffer addr len hbuf hbytes herased]

theorem C2_program_read_roundtrip_witness :
    (program init chip0 buf0 0 256).1 = Except.ok () ∧
    (read (program init chip0 buf0 0 256).2.1
      (program init chip0 buf0 0 256).2.2.1 0 256).1 = Except.ok buf0 :=
  C2_program_read_roundtrip init chip0 buf0 0 256 rfl (by decide) (by decide)
    (by decide) (by rw [buf0, List.length_replicate])
    (by
      intro b hbm
      rw [buf0] at hbm
      have h7 := List.eq_of_mem_replicate hbm
      omega)
    (fun a _ _ => rfl) (by decide) (by decide)

/-- C3: every command (read, program, erase, status) attempted while the
device is in deep power-down fails with `PowerStateViolation`, issues no
bus transaction, and leaves the driver and chip state unchanged (in
particular the driver does not silently wake the device). -/
theorem C3_power_state_violation (d : DataFlashDevice) (c : Chip)
    (buffer : List Nat) (addr len : Nat)
    (hdeep : d._deep_down = true) :
    read d c addr len = (Except.error Err.PowerStateViolation, d, c, []) ∧
    program d c buffer addr len =
      (Except.error Err.PowerStateViolation, d, c, []) ∧
    erase d c addr len = (Except.error Err.PowerStateViolation, d, c, []) ∧
    status d c = (Except.error Err.PowerStateViolation, d, c, []) ∧
    is_it_awake d = true := by
  refine ⟨?_, ?_, ?_, ?_, ?_⟩
  · unfold read
    rw [if_pos (by simp [hdeep])]
  · unfold program
    rw [if_pos (by simp [hdeep])]
  · unfold erase
    rw [if_pos (by simp [hdeep])]
  · unfold status
    rw [if_pos (by simp [hdeep])]
  · exact hdeep

theorem C3_power_state_violation_witness :
    dev_down._deep_down = true ∧
    read dev_down chip0 0 16 =
      (Except.error Err.PowerStateViolation, dev_down, chip0, []) ∧
    program dev_down chip0 [] 0 16 =
      (Except.error Err.PowerStateViolation, dev_down, chip0, []) ∧
    erase dev_down chip0 0 16 =
      (Except.error Err.PowerStateViolation, dev_down, chip0, []) ∧
    status dev_down chip0 =
      (Except.error Err.PowerStateViolation, dev_down, chip0, []) ∧
    is_it_awake dev_down = true :=
  ⟨rfl, C3_power_state_violation dev_down chip0 [] 0 16 rfl⟩

/-- C4 counterexample: on a chip whose erase outlasts the busy-wait
timeout, `erase` returns to the caller with `BusyTimeout` while the chip's
busy bit is still set, so not every returning program/erase observes an
idle poststate. -/
theorem C4_busy_timeout_counterexample :
    (erase init chip_slow 0 4096).1 = Except.error Err.BusyTimeout ∧
    (erase init chip_slow 0 4096).2.2.1.busy_cycles ≠ 0 := by
  obtain ⟨h1, h2⟩ := erase_timeout init chip_slow 0 4096 rfl (by decide)
    (by decide) (by decide) (by decide) rfl (by decide)
  refine ⟨h1, ?_⟩
  rw [h2]
  decide

/-- C4 (amended): every program or erase that issues any bus transaction
begins with a status poll (the busy-wait before the command), and every
program or erase that returns success leaves the chip idle (busy bit
clear); only a zero-length no-op or a failing call can return otherwise. -/
theorem C4_idle_on_success (d : DataFlashDevice) (c : Chip)
    (buffer : List Nat) (addr len : Nat) :
    ((program d c buffer addr len).1 ≠ Except.ok () ∨
     (program d c buffer addr len).2.2.2 = [] ∨
     (program d c buffer addr len).2.2.1.busy_cycles = 0) ∧
    ((program d c buffer addr len).2.2.2 = [] ∨
     ((program d c buffer addr len).2.2.2).head? =
       some BusTx.readStatusCmd) ∧
    ((erase d c addr len).1 ≠ Except.ok () ∨
     (erase d c addr len).2.2.2 = [] ∨
     (erase d c addr len).2.2.1.busy_cycles = 0) ∧
    ((erase d c addr len).2.2.2 = [] ∨
     ((erase d c addr len).2.2.2).head? = some BusTx.readStatusCmd) :=
  ⟨(program_poststate d c buffer addr len).1,
   (program_poststate d c buffer addr len).2,
   (erase_poststate d c addr len).1,
   (erase_poststate d c addr len).2⟩

/-- C5: for an aligned, in-range region, `erase` succeeds and an immediate
`read` of the same region returns the chip-defined erased-state bytes
(all 0xFF). -/
theorem C5_erase_then_read (d : DataFlashDevice) (c : Chip) (addr len : Nat)
    (hawake : d._deep_down = false)
    (haddr : addr % erase_unit d = 0) (hlen : len % erase_unit d = 0)
    (hrange : addr + len ≤ d.devicesize)
    (hb : c.busy_cycles ≤ DATAFLASH_TIMEOUT)
    (ht : c.erase_time ≤ DATAFLASH_TIMEOUT) :
    (erase d c addr len).1 = Except.ok () ∧
    (read (erase d c addr len).2.1 (erase d c addr len).2.2.1 addr len).1 =
      Except.ok (List.replicate len DATAFLASH_ERASED_BYTE) := by
  have hrange' : ¬ d.devicesize < addr + len := Nat.not_lt.mpr hrange
  by_cases hlen0 : len = 0
  · subst hlen0
    constructor
    · unfold erase
      rw [if_neg (by simp [hawake]), if_neg (by simp [haddr]),
        if_neg hrange', if_pos rfl]
    · unfold erase
      rw [if_neg (by simp [hawake]), if_neg (by simp [haddr]),
        if_neg hrange', if_pos rfl]
      unfold read
      rw [if_neg (by simp [hawake]),
        if_neg (by simp [DATAFLASH_READ_SIZE, Nat.mod_one]),
        if_neg hrange', if_pos rfl]
      simp [List.replicate]
  · obtain ⟨hok, hdev, hmem⟩ :=
      erase_eq_ok d c addr len hawake haddr hlen hrange' hlen0 hb ht
    refine ⟨hok, ?_⟩
    rw [hdev]
    unfold read
    rw [if_neg (by simp [hawake]),
      if_neg (by simp [DATAFLASH_READ_SIZE, Nat.mod_one]),
      if_neg hrange', if_neg hlen0]
    simp only
    rw [readBytes_erased (erase d c addr len).2.2.1.mem addr len hmem]

theorem C5_erase_then_read_witness :
    (erase init chip0 0 4096).1 = Except.ok () ∧
    (read (erase init chip0 0 4096).2.1
      (erase init chip0 0 4096).2.2.1 0 4096).1 =
        Except.ok (List.replicate 4096 DATAFLASH_ERASED_BYTE) :=
  C5_erase_then_read init chip0 0 4096 rfl (by decide) (by decide)
    (by decide) (by decide) (by decide)

/-- C6: waking the device out of deep power-down blocks the caller for at
least the declared 35 microsecond wake latency before returning, issues
exactly the power-down exit command, and leaves the device awake. -/
theorem C6_wake_latency (d : DataFlashDevice)
    (hdeep : d._deep_down = true) :
    DATAFLASH_WAKE_LATENCY_US ≤ (deep_power_down false d).2.2 ∧
    35 ≤ (deep_power_down false d).2.2 ∧
    (deep_power_down false d).1._deep_down = false ∧
    (deep_power_down false d).2.1 = [BusTx.dpdExitCmd] := by
  unfold deep_power_down
  rw [if_neg (by simp)]
  rw [if_pos (by simp [hdeep])]
  refine ⟨Nat.le_refl _, Nat.le_refl _, rfl, rfl⟩

theorem C6_wake_latency_witness :
    dev_down._deep_down = true ∧
    (35 ≤ (deep_power_down false dev_down).2.2 ∧
     (deep_power_down false dev_down).1._deep_down = false) :=
  ⟨rfl, (C6_wake_latency dev_down rfl).2.1,
    (C6_wake_latency dev_down rfl).2.2.1⟩

/-- C7: the busy-wait loop terminates on every execution within a bounded
number of status polls: it issues only status-register reads, at most
fuel + 1 of them, and either observes the busy bit clear and succeeds, or
fails with the hardware-timeout error `BusyTimeout` (and nothing else). -/
theorem C7_busy_wait_bounded (fuel : Nat) (c : Chip) :
    ((wait_until_idle fuel c).2.2).length ≤ fuel + 1 ∧
    (∀ t ∈ (wait_until_idle fuel c).2.2, t = BusTx.readStatusCmd) ∧
    ((wait_until_idle fuel c).1 = Except.ok () ∧
       (wait_until_idle fuel c).2.1.busy_cycles = 0 ∨
     (wait_until_idle fuel c).1 = Except.error Err.BusyTimeout) :=
  wait_until_idle_spec fuel c

/-- C8: the geometry populated at initialization satisfies the hierarchy
invariant (erase unit a multiple of program unit, program unit a multiple
of read unit, device size equal to page size times page count), and every
operation leaves all geometry fields of the driver unchanged. -/
theorem C8_geometry_invariant (d : DataFlashDevice) (c : Chip)
    (buffer : List Nat) (addr len : Nat) (onoff : Bool) :
    (get_erase_size init).1 % (get_program_size init).1 = 0 ∧
    (get_program_size init).1 % (get_read_size init).1 = 0 ∧
    (DataFlash.size init).1 = init.pagesize * init.pages ∧
    geometry (read d c addr len).2.1 = geometry d ∧
    geometry (program d c buffer addr len).2.1 = geometry d ∧
    geometry (erase d c addr len).2.1 = geometry d ∧
    geometry (deep_power_down onoff d).1 = geometry d ∧
    geometry (status d c).2.1 = geometry d := by
  refine ⟨by decide, by decide, by decide, ?_, ?_, ?_, ?_, ?_⟩
  · rw [read_dev]
  · rw [program_dev]
  · rw [erase_dev]
  · rw [deep_power_down_geometry]
  · rw [status_dev]

/-- C9 counterexample: with two driver instances in one process, putting
the first into deep power-down flips only that instance's flag: the second
instance is bit-for-bit unchanged, stays awake, and the two instances hold
different page sizes at the same time — contradicting the claim that the
deep-power-down flag and the geometry are process-wide globals whose
mutation from one instance is observable in the other. -/
theorem C9_globals_counterexample :
    (proc_deep_power_down_first true
      { dev1 := init, dev2 := dev_b }).dev1._deep_down = true ∧
    (proc_deep_power_down_first true
      { dev1 := init, dev2 := dev_b }).dev2 = dev_b ∧
    (proc_deep_power_down_first true
      { dev1 := init, dev2 := dev_b }).dev2._deep_down = false ∧
    (proc_deep_power_down_first true
      { dev1 := init, dev2 := dev_b }).dev1.pagesize ≠
      (proc_deep_power_down_first true
        { dev1 := init, dev2 := dev_b }).dev2.pagesize := by
  decide

/-- C9 (amended): the deep-power-down flag and the geometry are private
per-instance data members of the class (src/DataFlashDevice.h lines
133-147), so a power transition or an erase on one instance leaves the
other instance's entire state — power flag and geometry included —
unchanged. -/
theorem C9_per_instance_state (p : TwoDrivers) (onoff : Bool) (c : Chip)
    (addr len : Nat) :
    (proc_deep_power_down_first onoff p).dev2 = p.dev2 ∧
    (proc_erase_first c addr len p).dev2 = p.dev2 ∧
    geometry (proc_deep_power_down_first onoff p).dev1 = geometry p.dev1 :=
  ⟨rfl, rfl, deep_power_down_geometry onoff p.dev1⟩

/-- C10: the geometry accessors are const, effect-free queries: each
returns its value with the driver state unchanged and an empty bus trace,
for every driver state. -/
theorem C10_accessors_no_effect (d : DataFlashDevice) :
    (get_read_size d).2.1 = d ∧ (get_read_size d).2.2 = [] ∧
    (get_program_size d).2.1 = d ∧ (get_program_size d).2.2 = [] ∧
    (get_erase_size d).2.1 = d ∧ (get_erase_size d).2.2 = [] ∧
    (DataFlash.size d).2.1 = d ∧ (DataFlash.size d).2.2 = [] :=
  ⟨rfl, rfl, rfl, rfl, rfl, rfl, rfl, rfl⟩

end DataFlash
